import Mathlib

/-!
A shallow embedding of the expression front end and evaluator of the
lox-rust repository (src/core.rs, src/scanner.rs, src/parser.rs,
src/error.rs), together with theorems checking its specification.

Modelling conventions, used uniformly below:

* Rust `f64` values are modelled by `Rat`.  Every numeric literal and
  arithmetic step exercised by the theorems in this file is exact in
  `f64` (small integers, sums and products of them), so the model agrees
  with the Rust behaviour on all inputs the theorems touch; no theorem
  here depends on rounding, NaN or infinities.
* Rust `Vec` push order is modelled by appending at the end of a `List`.
* The diagnostics side channel (`error::error` and `error::token_error`
  print to stderr) is modelled by accumulating the reported payloads in
  an explicit list, since the reported line/message pair is the only
  observable content of a diagnostic.
* Loops are modelled by structurally recursive functions with an explicit
  `fuel` bound on the number of iterations.  Every loop in the source
  consumes at least one character (or one token) per iteration, so the
  bound `length + 1` passed at each call site is always sufficient; the
  fuel-exhausted branch is never reached from the entry points used here.
-/

namespace Lox

/-- The `TokenType` enum of src/core.rs (lines 4-45), including its
end-marker variant.  `Number` carries the parsed `f64` value, modelled as
`Rat`; `Str` carries the interior text of a string literal. -/
inductive TokenType where
  | LeftParen
  | RightParen
  | LeftBrace
  | RightBrace
  | Comma
  | Dot
  | Minus
  | Plus
  | SemiColon
  | Slash
  | Star
  | Bang
  | BangEqual
  | Equal
  | EqualEqual
  | Greater
  | GreaterEqual
  | Less
  | LessEqual
  | Identifier
  | Str (s : String)
  | Number (v : Rat)
  | And
  | Class
  | Else
  | False
  | Fun
  | For
  | If
  | Nil
  | Or
  | Print
  | Return
  | Super
  | This
  | True
  | Var
  | While
  | EOF
deriving DecidableEq

/-- The `Token` struct of src/core.rs (lines 47-52). -/
structure Token where
  token_type : TokenType
  lexeme : String
  line : Nat
deriving DecidableEq

/-- `Token::empty` (src/core.rs lines 63-69). -/
def Token.empty : Token := ⟨TokenType.EOF, "", 0⟩

/-- The `RuntimeError(pub Token)` struct of src/core.rs line 88. -/
structure RuntimeError where
  token : Token
deriving DecidableEq

/-- `RuntimeError::empty` (src/core.rs lines 91-96): an empty token whose
type is replaced by the given one. -/
def RuntimeError.empty (token_type : TokenType) : RuntimeError :=
  ⟨⟨token_type, Token.empty.lexeme, Token.empty.line⟩⟩

/-- The type-erased runtime object `LoxObject = Box<dyn any::Any>`
(src/core.rs line 80).  Each constructor records one concrete Rust type
that the evaluator ever stores in the box, so that the `downcast` calls
of the source can be modelled as constructor matches:

* `num`      — a boxed `f64` (numeric literals, arithmetic results);
* `str`      — a boxed `String` (string literals, concatenations);
* `optBool`  — a boxed `Option<bool>` (the `true`/`false`/`nil` literals,
               src/core.rs lines 309-319);
* `bool`     — a boxed `bool` (comparison and equality results);
* `boolBox`  — a boxed `Box<bool>` (produced by `Unary` `!`, which boxes
               the `Box<bool>` returned by `downcast`, line 350);
* `anyBox`   — a boxed `Box<dyn Any>` (produced by `Grouping`, which
               boxes the already type-erased inner result, line 285).

A `downcast` to a type `T` succeeds exactly on the constructor that
models `T` and fails on every other constructor. -/
inductive LoxObject where
  | num (v : Rat)
  | str (s : String)
  | optBool (b : Option Bool)
  | bool (b : Bool)
  | boolBox (b : Bool)
  | anyBox (o : LoxObject)
deriving DecidableEq

/-- The expression tree built by the parser.  The source builds trees of
the generic node structs `Binary`, `Grouping`, `Literal`, `Unary`
(src/core.rs lines 160, 278, 298, 336) behind `Box<dyn Expr>`; this
closed inductive has one constructor per node struct with the same
fields. -/
inductive Expr where
  | binary (left : Expr) (op : Token) (right : Expr)
  | grouping (expression : Expr)
  | literal (value : TokenType)
  | unary (op : Token) (right : Expr)
deriving DecidableEq

/-- The accumulated `ans` value of the `EqualEqual | BangEqual` arm of
`Binary::interpret` (src/core.rs lines 211-255): `ans` starts `false`,
then the `Option<bool>` downcast pair, the `String` downcast pair and
the `f64` downcast pair are each tried in turn, overwriting `ans` when
both sides downcast. -/
def eq_ans (left_object right_object : LoxObject) : Bool :=
  let ans := Bool.false
  let ans :=
    match left_object, right_object with
    | .optBool lvalue, .optBool rvalue =>
      match lvalue, rvalue with
      | none, none => Bool.true
      | some Bool.true, some Bool.true => Bool.true
      | some Bool.false, some Bool.false => Bool.true
      | _, _ => ans
    | _, _ => ans
  let ans :=
    match left_object, right_object with
    | .str str1, .str str2 => str1 == str2
    | _, _ => ans
  let ans :=
    match left_object, right_object with
    | .num num1, .num num2 => num1 == num2
    | _, _ => ans
  ans

/-- The body of `Binary::interpret` (src/core.rs lines 167-265) after
both children have been evaluated to `left_object` and `right_object`:
the match on the operator token type. -/
def binary_interpret_op (op : Token) (left_object right_object : LoxObject) :
    Except RuntimeError LoxObject :=
  match op.token_type with
  | .Plus | .Minus | .Slash | .Star | .Greater | .GreaterEqual | .Less | .LessEqual =>
    -- the `if let Plus` String concatenation special case (lines 174-187)
    let concat : Option LoxObject :=
      if op.token_type = TokenType.Plus then
        match left_object, right_object with
        | .str str1, .str str2 => some (.str (str1 ++ str2))
        | _, _ => none
      else none
    match concat with
    | some v => .ok v
    | none =>
      -- both sides must downcast to f64 (lines 189-194)
      match left_object, right_object with
      | .num lvalue, .num rvalue =>
        match op.token_type with
        | .Plus => .ok (.num (lvalue + rvalue))
        | .Minus => .ok (.num (lvalue - rvalue))
        | .Slash => .ok (.num (lvalue / rvalue))
        | .Star => .ok (.num (lvalue * rvalue))
        | .Greater => .ok (.bool (decide (lvalue > rvalue)))
        | .GreaterEqual => .ok (.bool (decide (lvalue ≥ rvalue)))
        | .Less => .ok (.bool (decide (lvalue < rvalue)))
        | .LessEqual => .ok (.bool (decide (lvalue ≤ rvalue)))
        | _ => .error ⟨op⟩
      | _, _ => .error ⟨op⟩
  | .EqualEqual | .BangEqual =>
    let ans := eq_ans left_object right_object
    if op.token_type == TokenType.EqualEqual then .ok (.bool ans)
    else .ok (.bool (!ans))
  | _ => .error ⟨op⟩

/-- The `interpret` method of the `Expr` trait, one arm per node struct
(`Binary` lines 167-265, `Grouping` lines 284-286, `Literal` lines
301-322, `Unary` lines 342-355 of src/core.rs).  The `?` operator is
modelled by matching on the child result. -/
def interpret : Expr → Except RuntimeError LoxObject
  | .binary left op right =>
    match interpret left with
    | .error e => .error e
    | .ok left_object =>
      match interpret right with
      | .error e => .error e
      | .ok right_object => binary_interpret_op op left_object right_object
  | .grouping expression =>
    -- `Ok(Box::new(self.expression.interpret()?))`: the inner result is
    -- itself a `Box<dyn Any>`, so the new box holds a `Box<dyn Any>`.
    match interpret expression with
    | .error e => .error e
    | .ok o => .ok (.anyBox o)
  | .literal value =>
    match value with
    | .Number num => .ok (.num num)
    | .Str string => .ok (.str string)
    | .True => .ok (.optBool (some Bool.true))
    | .False => .ok (.optBool (some Bool.false))
    | .Nil => .ok (.optBool none)
    | t => .error (RuntimeError.empty t)
  | .unary op right =>
    match interpret right with
    | .error e => .error e
    | .ok right_object =>
      match op.token_type with
      | .Minus =>
        match right_object with
        | .num num => .ok (.num (-1 * num))
        | _ => .error ⟨op⟩
      | .Bang =>
        -- `Ok(Box::new(truth))` where `truth : Box<bool>` is the value
        -- returned by `downcast`: the boolean is re-boxed, not negated.
        match right_object with
        | .bool truth => .ok (.boolBox truth)
        | _ => .error ⟨op⟩
      | _ => .error ⟨op⟩

/-- The textual rendering of a `f64` for `Literal`'s `Display`
(src/core.rs line 330).  Modelled by `Rat`'s rendering; no theorem in
this file depends on the digits this produces. -/
def f64_display (num : Rat) : String := toString num

/-- The `fmt::Display` implementations for the four node structs
(src/core.rs lines 268-276, 289-296, 325-334, 358-365).  A `Token`
displays as its lexeme (lines 72-76); a `Literal` displays its payload
for `Str` and `Number` and the empty string otherwise (line 332). -/
def display : Expr → String
  | .binary left op right =>
    "(" ++ op.lexeme ++ " " ++ display left ++ " " ++ display right ++ ")"
  | .grouping expression => "(group " ++ display expression ++ ")"
  | .literal value =>
    match value with
    | .Str s => s
    | .Number num => f64_display num
    | _ => ""
  | .unary op right => "(" ++ op.lexeme ++ " " ++ display right ++ ")"

/-- The `NextTokenInfo(char, TokenType, TokenType)` tuple struct of
src/core.rs line 78. -/
structure NextTokenInfo where
  expected : Char
  token_type1 : TokenType
  token_type2 : TokenType

/-- The `Scanner` struct of src/scanner.rs (lines 8-15).  The source text
is stored as its character list (the Rust field holds `&String` and is
only ever read through `chars()`).  The `reader : Peekable<Chars>` field
is omitted: it stays in lockstep with `current` (both move only in
`advance` and `check_next_symbol`), so peeking the reader is reading
`source` at index `current`.  The `start` field is passed explicitly to
the functions that read it, mirroring how `scan_tokens` sets it before
each `scan_token` call.  `errors` accumulates the `error::error`
diagnostics (line, message) reported during the scan. -/
structure Scanner where
  source : List Char
  current : Nat
  line : Nat
  tokens : List Token
  errors : List (Nat × String)
deriving DecidableEq

/-- `Scanner::new` (src/scanner.rs lines 18-29). -/
def Scanner.new (source : String) : Scanner :=
  ⟨source.data, 0, 1, [], []⟩

/-- `error::error` from src/error.rs, as called by the scanner: the
reported (line, message) pair is appended to the diagnostics list. -/
def report_error (line : Nat) (message : String) (s : Scanner) : Scanner :=
  { s with errors := s.errors ++ [(line, message)] }

/-- `Scanner::check_next_symbol` (src/scanner.rs lines 103-116): peek the
next character; if it satisfies `f`, consume it and return `some true`,
otherwise return `some false`; at end of input return `none`. -/
def check_next_symbol (f : Char → Bool) (s : Scanner) : Option Bool × Scanner :=
  match s.source.get? s.current with
  | some c =>
    if f c then (some Bool.true, { s with current := s.current + 1 })
    else (some Bool.false, s)
  | none => (none, s)

/-- `Scanner::add_token` (src/scanner.rs lines 118-136): compute the
lexeme from the source span and push the token.  For a `Str` token the
span excludes the surrounding quotes. -/
def add_token (start : Nat) (token_type : TokenType) (s : Scanner) : Scanner :=
  let text :=
    match token_type with
    | .Str _ => String.mk ((s.source.drop (start + 1)).take ((s.current - 1) - (start + 1)))
    | _ => String.mk ((s.source.drop start).take (s.current - start))
  { s with tokens := s.tokens ++ [⟨token_type, text, s.line⟩] }

/-- `Scanner::add_next_token` (src/scanner.rs lines 139-146). -/
def add_next_token (start : Nat) (next_token : NextTokenInfo) (s : Scanner) : Scanner :=
  match check_next_symbol (fun c => c == next_token.expected) s with
  | (some Bool.true, s1) => add_token start next_token.token_type1 s1
  | (_, s1) => add_token start next_token.token_type2 s1

/-- The `loop` of `Scanner::make_string` (src/scanner.rs lines 149-165).
Returns `true` when the closing quote was found and consumed, `false` on
end of input (after reporting "Unterminated string.").  Note that in the
`Some(false)` arm the source first consumes a newline (incrementing
`line`) via `check_next_symbol` and then calls `advance()` as well, so
two characters are consumed when a newline is seen. -/
def string_loop (fuel : Nat) (s : Scanner) : Bool × Scanner :=
  match fuel with
  | 0 => (Bool.false, s)
  | fuel + 1 =>
    match s.source.get? s.current with
    | none => (Bool.false, report_error s.line "Unterminated string." s)
    | some c =>
      if c == '"' then (Bool.true, { s with current := s.current + 1 })
      else
        let s1 :=
          if c == '\n' then { s with current := s.current + 1, line := s.line + 1 }
          else s
        string_loop fuel { s1 with current := s1.current + 1 }

/-- `Scanner::make_string` (src/scanner.rs lines 148-175). -/
def make_string (start : Nat) (s : Scanner) : Option TokenType × Scanner :=
  match string_loop (s.source.length + 1) s with
  | (Bool.false, s1) => (none, s1)
  | (Bool.true, s1) =>
    (some (.Str (String.mk ((s1.source.drop (start + 1)).take ((s1.current - 1) - (start + 1))))),
      s1)

/-- The `while let Some(true) = self.check_next_symbol(|c| c.is_digit(10))`
loops of `Scanner::make_number` (src/scanner.rs lines 178-197): consume a
maximal run of decimal digits. -/
def digit_run (fuel : Nat) (s : Scanner) : Scanner :=
  match fuel with
  | 0 => s
  | fuel + 1 =>
    match s.source.get? s.current with
    | some c =>
      if c.isDigit then digit_run fuel { s with current := s.current + 1 } else s
    | none => s

/-- The value of a run of decimal digit characters. -/
def digits_to_nat (l : List Char) : Nat :=
  l.foldl (fun a c => 10 * a + (c.toNat - 48)) 0

/-- The `literal_value.parse::<f64>().unwrap()` call of
`Scanner::make_number` (src/scanner.rs line 206), on the texts that
function produces (digits, optionally followed by a dot and more
digits).  Modelled exactly as a rational; every literal exercised by a
theorem in this file is a small integer, where `f64` parsing is exact. -/
def parse_f64 (l : List Char) : Rat :=
  let intPart := l.takeWhile (fun c => c != '.')
  let rest := l.dropWhile (fun c => c != '.')
  match rest with
  | [] => (digits_to_nat intPart : Rat)
  | _ :: frac => (digits_to_nat intPart : Rat) + (digits_to_nat frac : Rat) / (10 : Rat) ^ frac.length

/-- The `Some(...)` result of `Scanner::make_number` (src/scanner.rs
lines 199-208): the span from `start` to the current cursor parsed as an
`f64` Number token type. -/
def number_token (start : Nat) (s : Scanner) : Option TokenType × Scanner :=
  (some (TokenType.Number (parse_f64 ((s.source.drop start).take (s.current - start)))), s)

/-- The fractional-part handling of `Scanner::make_number`
(src/scanner.rs lines 182-186), in the state where the dot has just been
consumed: if no digit follows, the error
"Number cannot end with '.' operator" is reported and no token is
produced; otherwise the digit and the rest of the fraction run are
consumed. -/
def make_number_fraction (start : Nat) (s2 : Scanner) : Option TokenType × Scanner :=
  match s2.source.get? s2.current with
  | some d =>
    if d.isDigit then
      number_token start (digit_run (s2.source.length + 1) { s2 with current := s2.current + 1 })
    else (none, report_error s2.line "Number cannot end with '.' operator" s2)
  | none => (none, report_error s2.line "Number cannot end with '.' operator" s2)

/-- The `Some(false)`/`None` exits of the main loop of
`Scanner::make_number` (src/scanner.rs lines 180-195), in the state
after the integer digit run: at end of input or before a non-dot
character the number ends here; a dot is consumed and handled by
`make_number_fraction`. -/
def make_number_rest (start : Nat) (s1 : Scanner) : Option TokenType × Scanner :=
  match s1.source.get? s1.current with
  | none => number_token start s1
  | some c =>
    if c == '.' then make_number_fraction start { s1 with current := s1.current + 1 }
    else number_token start s1

/-- `Scanner::make_number` (src/scanner.rs lines 177-209): consume the
integer digits, then the optional dot and fraction digits, and parse the
whole span as an `f64`. -/
def make_number (start : Nat) (s : Scanner) : Option TokenType × Scanner :=
  make_number_rest start (digit_run (s.source.length + 1) s)

/-- The identifier-run loop of `Scanner::make_identifier`
(src/scanner.rs line 212).  Rust's Unicode `is_alphanumeric` is modelled
by the ASCII `Char.isAlphanum`; no theorem in this file scans a
non-ASCII character. -/
def ident_run (fuel : Nat) (s : Scanner) : Scanner :=
  match fuel with
  | 0 => s
  | fuel + 1 =>
    match s.source.get? s.current with
    | some c =>
      if c.isAlphanum || c == '_' then ident_run fuel { s with current := s.current + 1 } else s
    | none => s

/-- The keyword table of `Scanner::make_identifier`
(src/scanner.rs lines 221-239). -/
def keyword_type (literal_value : String) : TokenType :=
  match literal_value with
  | "and" => .And
  | "class" => .Class
  | "else" => .Else
  | "false" => .False
  | "for" => .For
  | "fun" => .Fun
  | "if" => .If
  | "nil" => .Nil
  | "or" => .Or
  | "print" => .Print
  | "return" => .Return
  | "super" => .Super
  | "this" => .This
  | "true" => .True
  | "var" => .Var
  | "while" => .While
  | _ => .Identifier

/-- `Scanner::make_identifier` (src/scanner.rs lines 211-240). -/
def make_identifier (start : Nat) (s : Scanner) : TokenType × Scanner :=
  let s1 := ident_run (s.source.length + 1) s
  (keyword_type (String.mk ((s1.source.drop start).take (s1.current - start))), s1)

/-- The comment loop of the `/` arm of `Scanner::scan_token`
(src/scanner.rs lines 64-67): consume characters up to and including the
next newline (or to end of input). -/
def comment_loop (fuel : Nat) (s : Scanner) : Scanner :=
  match fuel with
  | 0 => s
  | fuel + 1 =>
    match s.source.get? s.current with
    | none => s
    | some c =>
      if c == '\n' then { s with current := s.current + 1 }
      else comment_loop fuel { s with current := s.current + 1 }

/-- `Scanner::scan_token` (src/scanner.rs lines 43-95), after the initial
`self.advance().unwrap()` has consumed the character `c`: `s` is the
state in which `c` is already consumed and `start` is the index of `c`.
Rust's Unicode `is_alphabetic` is modelled by the ASCII `Char.isAlpha`. -/
def scan_token (c : Char) (start : Nat) (s : Scanner) : Scanner :=
  match c with
  | '(' => add_token start .LeftParen s
  | ')' => add_token start .RightParen s
  | '\x7b' => add_token start .LeftBrace s
  | '\x7d' => add_token start .RightBrace s
  | ',' => add_token start .Comma s
  | '.' => add_token start .Dot s
  | '-' => add_token start .Minus s
  | '+' => add_token start .Plus s
  | ';' => add_token start .SemiColon s
  | '*' => add_token start .Star s
  | '!' => add_next_token start ⟨'=', .BangEqual, .Bang⟩ s
  | '=' => add_next_token start ⟨'=', .EqualEqual, .Equal⟩ s
  | '<' => add_next_token start ⟨'=', .LessEqual, .Less⟩ s
  | '>' => add_next_token start ⟨'=', .GreaterEqual, .Greater⟩ s
  | '/' =>
    match check_next_symbol (fun ch => ch == '/') s with
    | (none, s1) => report_error s1.line "Unexpected EOF" s1
    | (some Bool.false, s1) => add_token start .Slash s1
    | (some Bool.true, s1) =>
      let s2 := comment_loop (s1.source.length + 1) s1
      { s2 with line := s2.line + 1 }
  | ' ' => s
  | '\r' => s
  | '\t' => s
  | '\n' => { s with line := s.line + 1 }
  | '"' =>
    match make_string start s with
    | (some tt, s1) => add_token start tt s1
    | (none, s1) => s1
  | c =>
    if c.isDigit then
      match make_number start s with
      | (some tt, s1) => add_token start tt s1
      | (none, s1) => s1
    else if c.isAlpha || c == '_' then
      match make_identifier start s with
      | (tt, s1) => add_token start tt s1
    else report_error s.line "Unexpected character." s

/-- `Scanner::scan_tokens` (src/scanner.rs lines 31-36): while a
character remains, set `start := current` and scan one token. -/
def scan_tokens (fuel : Nat) (s : Scanner) : Scanner :=
  match fuel with
  | 0 => s
  | fuel + 1 =>
    match s.source.get? s.current with
    | some c => scan_tokens fuel (scan_token c s.current { s with current := s.current + 1 })
    | none => s

/-- Scanning a complete source text: `Scanner::new` followed by
`scan_tokens`.  Each loop iteration consumes at least one character, so
`length + 1` iterations always reach the end of input. -/
def scan (source : String) : Scanner :=
  let s := Scanner.new source
  scan_tokens (s.source.length + 1) s

/-- The observable outcome of a failed parse.  In src/parser.rs a
failure is the unit struct `ParseError {}`; what distinguishes failures
is whether `Parser::error` (src/parser.rs lines 162-166) reported a
diagnostic through `error::token_error` on the way, and with which token
and message.  `reported` is a failure with such a diagnostic, `silent`
is a bare `Err(ParseError {})` with no diagnostic.  `outOfFuel` is an
artifact of the fuel-bounded embedding of the recursion and is never
produced when the fuel exceeds the recursion depth. -/
inductive ParseErr where
  | reported (token : Token) (message : String)
  | silent
  | outOfFuel
deriving DecidableEq

/-- `Parser::check_next_token` (src/parser.rs lines 133-145): peek the
next token; if it satisfies `f`, consume and return it.  The parser
state is the list of tokens not yet consumed (the `current` counter of
the struct is written but never read). -/
def check_next_token (f : Token → Bool) (toks : List Token) :
    Option (Token × List Token) :=
  match toks with
  | token :: rest => if f token then some (token, rest) else none
  | [] => none

/-- The closure passed to `check_next_token` by `Parser::primary`
(src/parser.rs lines 113-115): does the token start a literal? -/
def is_literal_token (token : Token) : Bool :=
  match token.token_type with
  | .True | .False | .Nil | .Number _ | .Str _ => Bool.true
  | _ => Bool.false

/-- `Parser::check_unexpected_expr` (src/parser.rs lines 147-155): after
a binary level finishes, a following token that could start a primary
is the "Unexpected Expression" parse error. -/
def check_unexpected_expr (toks : List Token) : Except ParseErr (List Token) :=
  match check_next_token
      (fun token =>
        match token.token_type with
        | .True | .False | .Nil | .Number _ | .Str _ | .LeftParen | .Identifier => Bool.true
        | _ => Bool.false)
      toks with
  | some (token, _) => .error (.reported token "Unexpected Expression")
  | none => .ok toks

/-- `Parser::consume` (src/parser.rs lines 168-180). -/
def consume (token_type : TokenType) (message : String) (toks : List Token) :
    Except ParseErr (List Token) :=
  match toks with
  | next_token :: rest =>
    if next_token.token_type == token_type then .ok rest
    else .error (.reported next_token message)
  | [] => .error .silent

mutual

/-- `Parser::expression` (src/parser.rs lines 27-29). -/
def expression (fuel : Nat) (toks : List Token) : Except ParseErr (Expr × List Token) :=
  match fuel with
  | 0 => .error .outOfFuel
  | fuel + 1 => equality fuel toks

/-- `Parser::equality` (src/parser.rs lines 31-46). -/
def equality (fuel : Nat) (toks : List Token) : Except ParseErr (Expr × List Token) :=
  match fuel with
  | 0 => .error .outOfFuel
  | fuel + 1 =>
    match comparison fuel toks with
    | .error e => .error e
    | .ok (expr, toks) =>
      match equality_loop fuel expr toks with
      | .error e => .error e
      | .ok (expr, toks) =>
        match check_unexpected_expr toks with
        | .error e => .error e
        | .ok toks => .ok (expr, toks)

/-- The `while let` operator loop of `Parser::equality`
(src/parser.rs lines 34-41). -/
def equality_loop (fuel : Nat) (expr : Expr) (toks : List Token) :
    Except ParseErr (Expr × List Token) :=
  match fuel with
  | 0 => .error .outOfFuel
  | fuel + 1 =>
    match check_next_token
        (fun token =>
          match token.token_type with
          | .BangEqual | .EqualEqual => Bool.true
          | _ => Bool.false)
        toks with
    | some (token, toks) =>
      match comparison fuel toks with
      | .error e => .error e
      | .ok (right_expr, toks) => equality_loop fuel (.binary expr token right_expr) toks
    | none => .ok (expr, toks)

/-- `Parser::comparison` (src/parser.rs lines 48-63). -/
def comparison (fuel : Nat) (toks : List Token) : Except ParseErr (Expr × List Token) :=
  match fuel with
  | 0 => .error .outOfFuel
  | fuel + 1 =>
    match addition fuel toks with
    | .error e => .error e
    | .ok (expr, toks) =>
      match comparison_loop fuel expr toks with
      | .error e => .error e
      | .ok (expr, toks) =>
        match check_unexpected_expr toks with
        | .error e => .error e
        | .ok toks => .ok (expr, toks)

/-- The `while let` operator loop of `Parser::comparison`
(src/parser.rs lines 51-58). -/
def comparison_loop (fuel : Nat) (expr : Expr) (toks : List Token) :
    Except ParseErr (Expr × List Token) :=
  match fuel with
  | 0 => .error .outOfFuel
  | fuel + 1 =>
    match check_next_token
        (fun token =>
          match token.token_type with
          | .Greater | .GreaterEqual | .Less | .LessEqual => Bool.true
          | _ => Bool.false)
        toks with
    | some (token, toks) =>
      match addition fuel toks with
      | .error e => .error e
      | .ok (right_expr, toks) => comparison_loop fuel (.binary expr token right_expr) toks
    | none => .ok (expr, toks)

/-- `Parser::addition` (src/parser.rs lines 65-80). -/
def addition (fuel : Nat) (toks : List Token) : Except ParseErr (Expr × List Token) :=
  match fuel with
  | 0 => .error .outOfFuel
  | fuel + 1 =>
    match multiplication fuel toks with
    | .error e => .error e
    | .ok (expr, toks) =>
      match addition_loop fuel expr toks with
      | .error e => .error e
      | .ok (expr, toks) =>
        match check_unexpected_expr toks with
        | .error e => .error e
        | .ok toks => .ok (expr, toks)

/-- The `while let` operator loop of `Parser::addition`
(src/parser.rs lines 68-75). -/
def addition_loop (fuel : Nat) (expr : Expr) (toks : List Token) :
    Except ParseErr (Expr × List Token) :=
  match fuel with
  | 0 => .error .outOfFuel
  | fuel + 1 =>
    match check_next_token
        (fun token =>
          match token.token_type with
          | .Minus | .Plus => Bool.true
          | _ => Bool.false)
        toks with
    | some (token, toks) =>
      match multiplication fuel toks with
      | .error e => .error e
      | .ok (right_expr, toks) => addition_loop fuel (.binary expr token right_expr) toks
    | none => .ok (expr, toks)

/-- `Parser::multiplication` (src/parser.rs lines 82-97). -/
def multiplication (fuel : Nat) (toks : List Token) : Except ParseErr (Expr × List Token) :=
  match fuel with
  | 0 => .error .outOfFuel
  | fuel + 1 =>
    match unary (fuel) toks with
    | .error e => .error e
    | .ok (expr, toks) =>
      match multiplication_loop fuel expr toks with
      | .error e => .error e
      | .ok (expr, toks) =>
        match check_unexpected_expr toks with
        | .error e => .error e
        | .ok toks => .ok (expr, toks)

/-- The `while let` operator loop of `Parser::multiplication`
(src/parser.rs lines 85-92). -/
def multiplication_loop (fuel : Nat) (expr : Expr) (toks : List Token) :
    Except ParseErr (Expr × List Token) :=
  match fuel with
  | 0 => .error .outOfFuel
  | fuel + 1 =>
    match check_next_token
        (fun token =>
          match token.token_type with
          | .Slash | .Star => Bool.true
          | _ => Bool.false)
        toks with
    | some (token, toks) =>
      match unary fuel toks with
      | .error e => .error e
      | .ok (right_expr, toks) => multiplication_loop fuel (.binary expr token right_expr) toks
    | none => .ok (expr, toks)

/-- `Parser::unary` (src/parser.rs lines 99-110). -/
def unary (fuel : Nat) (toks : List Token) : Except ParseErr (Expr × List Token) :=
  match fuel with
  | 0 => .error .outOfFuel
  | fuel + 1 =>
    match check_next_token
        (fun token =>
          match token.token_type with
          | .Bang | .Minus => Bool.true
          | _ => Bool.false)
        toks with
    | some (token, toks) =>
      match unary fuel toks with
      | .error e => .error e
      | .ok (right_expr, toks) => .ok (.unary token right_expr, toks)
    | none => primary fuel toks

/-- `Parser::primary` (src/parser.rs lines 112-130): a literal token, or
a parenthesised expression, or the "Expected expression." error against
the next token, or a bare `ParseError {}` when no token remains. -/
def primary (fuel : Nat) (toks : List Token) : Except ParseErr (Expr × List Token) :=
  match fuel with
  | 0 => .error .outOfFuel
  | fuel + 1 =>
    match check_next_token is_literal_token toks with
    | some (token, toks) => .ok (.literal token.token_type, toks)
    | none =>
      match check_next_token (fun token => token.token_type == TokenType.LeftParen) toks with
      | some (_, toks) =>
        match expression fuel toks with
        | .error e => .error e
        | .ok (expr, toks) =>
          match consume .RightParen "Expect ')' after expression." toks with
          | .error e => .error e
          | .ok toks => .ok (.grouping expr, toks)
      | none =>
        match toks with
        | token :: _ => .error (.reported token "Expected expression.")
        | [] => .error .silent

end

/-- `Parser::parse` (src/parser.rs lines 23-25), dropping the unconsumed
remainder of the token list as the source does.  The recursion descends
at most seven precedence levels before consuming a token, so the fuel
`8 * length + 8` exceeds the recursion depth on every input. -/
def parse (toks : List Token) : Except ParseErr Expr :=
  match expression (8 * toks.length + 8) toks with
  | .ok (expr, _) => .ok expr
  | .error e => .error e

deriving instance DecidableEq for Except

/-!
## Theorems

The theorems below check the specification claims against the embedded
code.  Helper lemmas (state-preservation facts about the scanner loops
and membership facts about the token list) come first.
-/

/-- C1: the claim states that evaluating `Grouping(e)` returns exactly
the value of `e`, unchanged and not re-wrapped, so that
`"(1 + 2) * 3"` evaluates to `9`.  The code instead wraps the already
type-erased inner result in a second box (`Ok(Box::new(...?))` in
`Grouping::interpret`), so every later downcast on a grouped value
fails: the quoted example parses as expected but evaluates to a runtime
error carrying the `*` token instead of the number `9`. -/
theorem claim1_grouping_rewraps_value :
    (∀ e : Expr, interpret (Expr.grouping e) = (interpret e).map LoxObject.anyBox) ∧
    parse (scan "(1 + 2) * 3").tokens =
      .ok (.binary
        (.grouping (.binary (.literal (.Number 1)) ⟨.Plus, "+", 1⟩ (.literal (.Number 2))))
        ⟨.Star, "*", 1⟩ (.literal (.Number 3))) ∧
    interpret (.binary
        (.grouping (.binary (.literal (.Number 1)) ⟨.Plus, "+", 1⟩ (.literal (.Number 2))))
        ⟨.Star, "*", 1⟩ (.literal (.Number 3))) =
      .error ⟨⟨.Star, "*", 1⟩⟩ := by
  refine ⟨fun e => ?_, ?_, by decide⟩
  · cases h : interpret e <;> simp [interpret, h, Except.map]
  · have h : (scan "(1 + 2) * 3").tokens =
        [⟨.LeftParen, "(", 1⟩, ⟨.Number 1, "1", 1⟩, ⟨.Plus, "+", 1⟩, ⟨.Number 2, "2", 1⟩,
         ⟨.RightParen, ")", 1⟩, ⟨.Star, "*", 1⟩, ⟨.Number 3, "3", 1⟩] := by decide
    rw [h]; decide

/-- C2: the claim states that `!` succeeds exactly on `Bool` operands
and returns the logical negation.  In the code the literals `true` and
`false` evaluate to a boxed `Option<bool>` while `!` downcasts to
`bool`, so `!true` fails with a runtime error at the `!` token; and on
the only objects that do carry a plain `bool` (comparison results) the
`Bang` arm returns `Ok(Box::new(truth))` — the un-negated boolean
re-wrapped in an extra box — instead of the negation. -/
theorem claim2_bang_rejects_literal_bools :
    interpret (.unary ⟨.Bang, "!", 1⟩ (.literal .True)) = .error ⟨⟨.Bang, "!", 1⟩⟩ ∧
    interpret (.binary (.literal (.Number 1)) ⟨.Less, "<", 1⟩ (.literal (.Number 2))) =
      .ok (.bool Bool.true) ∧
    interpret (.unary ⟨.Bang, "!", 1⟩
        (.binary (.literal (.Number 1)) ⟨.Less, "<", 1⟩ (.literal (.Number 2)))) =
      .ok (.boolBox Bool.true) :=
  ⟨by decide, by decide, by decide⟩

/-- C3: the claim states that `==` compares within each runtime kind,
with two `Bool`s equal iff identical.  The equality arm of
`Binary::interpret` only downcasts `Option<bool>` (literal booleans and
nil), `String` and `f64`; the plain `bool` objects produced by the
comparison operators match none of these, so two identical `Bool`
results compare unequal: `"1 < 2 == 1 < 2"` has both operands evaluate
to `Bool` `true` yet evaluates to `false`, where the claim requires
`true`. -/
theorem claim3_comparison_bools_never_equal :
    parse (scan "1 < 2 == 1 < 2").tokens =
      .ok (.binary
        (.binary (.literal (.Number 1)) ⟨.Less, "<", 1⟩ (.literal (.Number 2)))
        ⟨.EqualEqual, "==", 1⟩
        (.binary (.literal (.Number 1)) ⟨.Less, "<", 1⟩ (.literal (.Number 2)))) ∧
    interpret (.binary (.literal (.Number 1)) ⟨.Less, "<", 1⟩ (.literal (.Number 2))) =
      .ok (.bool Bool.true) ∧
    interpret (.binary
        (.binary (.literal (.Number 1)) ⟨.Less, "<", 1⟩ (.literal (.Number 2)))
        ⟨.EqualEqual, "==", 1⟩
        (.binary (.literal (.Number 1)) ⟨.Less, "<", 1⟩ (.literal (.Number 2)))) =
      .ok (.bool Bool.false) := by
  refine ⟨?_, by decide, by decide⟩
  have h : (scan "1 < 2 == 1 < 2").tokens =
      [⟨.Number 1, "1", 1⟩, ⟨.Less, "<", 1⟩, ⟨.Number 2, "2", 1⟩, ⟨.EqualEqual, "==", 1⟩,
       ⟨.Number 1, "1", 1⟩, ⟨.Less, "<", 1⟩, ⟨.Number 2, "2", 1⟩] := by decide
  rw [h]; decide

/-- The comment loop changes neither the token list nor the
diagnostics. -/
theorem comment_loop_state (fuel : Nat) :
    ∀ s : Scanner, (comment_loop fuel s).tokens = s.tokens ∧
      (comment_loop fuel s).errors = s.errors := by
  induction fuel with
  | zero => intro s; exact ⟨rfl, rfl⟩
  | succ n ih =>
    intro s
    unfold comment_loop
    cases h : s.source.get? s.current with
    | none => exact ⟨rfl, rfl⟩
    | some c =>
      by_cases hc : c = '\n'
      · simp [hc]
      · simpa [hc] using ih { s with current := s.current + 1 }

/-- `check_next_symbol` changes neither the token list nor the
diagnostics. -/
theorem check_next_symbol_inv {f : Char → Bool} {s : Scanner} {r : Option Bool} {s1 : Scanner}
    (h : check_next_symbol f s = (r, s1)) :
    s1.tokens = s.tokens ∧ s1.errors = s.errors := by
  unfold check_next_symbol at h
  split at h
  · split at h
    · injection h with h1 h2; subst h2; exact ⟨rfl, rfl⟩
    · injection h with h1 h2; subst h2; exact ⟨rfl, rfl⟩
  · injection h with h1 h2; subst h2; exact ⟨rfl, rfl⟩

/-- A token present after `add_token` was already present or has the
pushed token type. -/
theorem mem_add_token {t : Token} {start : Nat} {tt : TokenType} {s : Scanner}
    (h : t ∈ (add_token start tt s).tokens) : t ∈ s.tokens ∨ t.token_type = tt := by
  simp only [add_token, List.mem_append, List.mem_singleton] at h
  rcases h with h | h
  · exact Or.inl h
  · subst h; exact Or.inr rfl

/-- A token present after `add_next_token` was already present or has
one of the two candidate token types. -/
theorem mem_add_next_token {t : Token} {start : Nat} {nti : NextTokenInfo} {s : Scanner}
    (h : t ∈ (add_next_token start nti s).tokens) :
    t ∈ s.tokens ∨ t.token_type = nti.token_type1 ∨ t.token_type = nti.token_type2 := by
  unfold add_next_token at h
  split at h
  · next s1 heq =>
    rcases mem_add_token h with h' | h'
    · exact Or.inl ((check_next_symbol_inv heq).1 ▸ h')
    · exact Or.inr (Or.inl h')
  · next r s1 _ heq =>
    rcases mem_add_token h with h' | h'
    · exact Or.inl ((check_next_symbol_inv heq).1 ▸ h')
    · exact Or.inr (Or.inr h')

/-- The string loop never changes the token list. -/
theorem string_loop_tokens (fuel : Nat) :
    ∀ s : Scanner, ((string_loop fuel s).2).tokens = s.tokens := by
  induction fuel with
  | zero => intro s; rfl
  | succ n ih =>
    intro s
    unfold string_loop
    cases h : s.source.get? s.current with
    | none => rfl
    | some c =>
      by_cases hq : c = '"'
      · simp [hq]
      · by_cases hn : c = '\n' <;> simp [hq, hn, ih]

/-- `make_string` keeps the token list and only ever produces a `Str`
token type. -/
theorem make_string_inv {start : Nat} {s : Scanner} {o : Option TokenType} {s1 : Scanner}
    (h : make_string start s = (o, s1)) :
    s1.tokens = s.tokens ∧ ∀ tt, o = some tt → ∃ a, tt = TokenType.Str a := by
  unfold make_string at h
  split at h
  · next s2 heq =>
    injection h with h1 h2; subst h2
    have := string_loop_tokens (s.source.length + 1) s
    rw [heq] at this
    exact ⟨this, by subst h1; intro tt htt; cases htt⟩
  · next s2 heq =>
    injection h with h1 h2; subst h2
    have := string_loop_tokens (s.source.length + 1) s
    rw [heq] at this
    refine ⟨this, ?_⟩
    subst h1; intro tt htt
    injection htt with htt; subst htt
    exact ⟨_, rfl⟩

/-- The digit loop never changes the token list. -/
theorem digit_run_tokens (fuel : Nat) :
    ∀ s : Scanner, (digit_run fuel s).tokens = s.tokens := by
  induction fuel with
  | zero => intro s; rfl
  | succ n ih =>
    intro s
    unfold digit_run
    cases h : s.source.get? s.current with
    | none => rfl
    | some c => by_cases hd : c.isDigit <;> simp [hd, ih]

/-- `make_number` keeps the token list and only ever produces a
`Number` token type. -/
theorem make_number_inv {start : Nat} {s : Scanner} {o : Option TokenType} {s1 : Scanner}
    (h : make_number start s = (o, s1)) :
    s1.tokens = s.tokens ∧ ∀ tt, o = some tt → ∃ q, tt = TokenType.Number q := by
  have base : ∀ (st : Scanner) (o1 : Option TokenType) (s2 : Scanner),
      number_token start st = (o1, s2) →
      s2.tokens = st.tokens ∧ ∀ tt, o1 = some tt → ∃ q, tt = TokenType.Number q := by
    intro st o1 s2 hb
    injection hb with h1 h2; subst h2
    refine ⟨rfl, ?_⟩
    subst h1; intro tt htt
    injection htt with htt; subst htt; exact ⟨_, rfl⟩
  have frac : ∀ (st : Scanner) (o1 : Option TokenType) (s2 : Scanner),
      make_number_fraction start st = (o1, s2) →
      s2.tokens = st.tokens ∧ ∀ tt, o1 = some tt → ∃ q, tt = TokenType.Number q := by
    intro st o1 s2 hb
    unfold make_number_fraction at hb
    split at hb
    · split at hb
      · rcases base _ _ _ hb with ⟨hb1, hb2⟩
        exact ⟨by rw [hb1]; simp [digit_run_tokens], hb2⟩
      · injection hb with h1 h2; subst h2
        exact ⟨rfl, by subst h1; intro tt htt; cases htt⟩
    · injection hb with h1 h2; subst h2
      exact ⟨rfl, by subst h1; intro tt htt; cases htt⟩
  have rest : ∀ (st : Scanner) (o1 : Option TokenType) (s2 : Scanner),
      make_number_rest start st = (o1, s2) →
      s2.tokens = st.tokens ∧ ∀ tt, o1 = some tt → ∃ q, tt = TokenType.Number q := by
    intro st o1 s2 hb
    unfold make_number_rest at hb
    split at hb
    · exact base _ _ _ hb
    · split at hb
      · rcases frac _ _ _ hb with ⟨hb1, hb2⟩
        exact ⟨hb1, hb2⟩
      · exact base _ _ _ hb
  unfold make_number at h
  rcases rest _ _ _ h with ⟨h1, h2⟩
  exact ⟨by rw [h1]; exact digit_run_tokens _ s, h2⟩

/-- The identifier loop never changes the token list. -/
theorem ident_run_tokens (fuel : Nat) :
    ∀ s : Scanner, (ident_run fuel s).tokens = s.tokens := by
  induction fuel with
  | zero => intro s; rfl
  | succ n ih =>
    intro s
    unfold ident_run
    cases h : s.source.get? s.current with
    | none => rfl
    | some c => by_cases hd : (c.isAlphanum || c == '_') = Bool.true <;> simp_all [ih]

/-- The keyword table never yields the end-marker token type. -/
theorem keyword_type_ne_eof (literal_value : String) :
    keyword_type literal_value ≠ TokenType.EOF := by
  unfold keyword_type
  split <;> simp

/-- `make_identifier` keeps the token list and never produces the
end-marker token type. -/
theorem make_identifier_inv {start : Nat} {s : Scanner} {tt : TokenType} {s1 : Scanner}
    (h : make_identifier start s = (tt, s1)) :
    s1.tokens = s.tokens ∧ tt ≠ TokenType.EOF := by
  unfold make_identifier at h
  injection h with h1 h2; subst h2
  exact ⟨ident_run_tokens _ s, by subst h1; exact keyword_type_ne_eof _⟩

/-- C6 counterexample: the claim states that a `/` that is the last
character of the input emits a `Slash` token and reports no lexical
error.  Scanning the one-character input `"/"` produces no token at all
and reports the lexical error "Unexpected EOF" at line 1. -/
theorem claim6_counterexample :
    (scan "/").tokens = [] ∧ (scan "/").errors = [(1, "Unexpected EOF")] :=
  ⟨by decide, by decide⟩

/-- With enough fuel the comment loop consumes exactly the characters
up to and including the next newline (or everything to end of input
when no newline remains) and changes nothing else in the state: the
cursor lands at `min (current + k + 1) length`, where `k` is the length
of the newline-free prefix of the remaining source. -/
theorem comment_loop_consumes (fuel : Nat) :
    ∀ s : Scanner, s.current ≤ s.source.length → s.source.length - s.current ≤ fuel →
      comment_loop fuel s =
        { s with current :=
            (min
              (s.current + ((s.source.drop s.current).takeWhile (fun ch => ch != '\n')).length + 1)
              s.source.length) } := by
  induction fuel with
  | zero =>
    intro s h1 h2
    have hc : s.current = s.source.length := by omega
    show s = _
    cases s with
    | mk source current line tokens errors =>
      simp only at hc
      subst hc
      simp [List.drop_length, Scanner.mk.injEq]
  | succ n ih =>
    intro s h1 h2
    unfold comment_loop
    cases hg : s.source.get? s.current with
    | none =>
      have hc : s.current = s.source.length := by
        have := List.get?_eq_none.mp hg
        omega
      cases s with
      | mk source current line tokens errors =>
        simp only at hc
        subst hc
        simp [List.drop_length, Scanner.mk.injEq]
    | some c =>
      obtain ⟨hlt, hget⟩ := List.get?_eq_some.mp hg
      have hgetElem : s.source[s.current] = c := by
        rw [← hget]; simp [List.get_eq_getElem]
      have hdrop : s.source.drop s.current = c :: s.source.drop (s.current + 1) := by
        rw [List.drop_eq_getElem_cons hlt, hgetElem]
      by_cases hn : c = '\n'
      · subst hn
        simp only [beq_self_eq_true, if_true]
        rw [hdrop]
        simp [List.takeWhile_cons, Scanner.mk.injEq]
        omega
      · have hne : (c == '\n') = Bool.false := by simp [hn]
        simp only [hne, Bool.false_eq_true, if_false]
        have hih := ih { s with current := s.current + 1 } (by simp only []; omega)
          (by simp only []; omega)
        rw [hih]
        rw [hdrop]
        simp [List.takeWhile_cons, hn, Scanner.mk.injEq]
        omega

/-- C6 amended: when the scanner consumes a `/`, then: if another
character remains and it is a second `/`, the remainder of the line up
to and including the next newline (or everything to end of input when
no newline remains) is consumed as a comment, the line counter is
incremented once, and neither a token nor an error is produced — in
particular no token arises from the comment text and nothing beyond the
newline is consumed; if another character remains and it is not `/`, a
`Slash` token is emitted and no error is reported; but if the `/` was
the last character of the input, the lexical error "Unexpected EOF" is
reported and no token is emitted. -/
theorem claim6_slash_cases (s : Scanner) (start : Nat) :
    (s.source.get? s.current = none →
      (scan_token '/' start s).tokens = s.tokens ∧
      (scan_token '/' start s).errors = s.errors ++ [(s.line, "Unexpected EOF")]) ∧
    (∀ c : Char, s.source.get? s.current = some c → c ≠ '/' →
      (scan_token '/' start s).tokens =
        s.tokens ++
          [⟨.Slash, String.mk ((s.source.drop start).take (s.current - start)), s.line⟩] ∧
      (scan_token '/' start s).errors = s.errors) ∧
    (s.source.get? s.current = some '/' →
      (scan_token '/' start s).tokens = s.tokens ∧
      (scan_token '/' start s).errors = s.errors ∧
      scan_token '/' start s =
        { s with
            current :=
              (min
                (s.current + 1 +
                  ((s.source.drop (s.current + 1)).takeWhile (fun ch => ch != '\n')).length + 1)
                s.source.length)
            line := s.line + 1 }) := by
  refine ⟨fun h => ?_, fun c h hc => ?_, fun h => ?_⟩
  · have hcns : check_next_symbol (fun ch => ch == '/') s = (none, s) := by
      unfold check_next_symbol; rw [h]
    simp [scan_token, hcns, report_error]
  · have hcns : check_next_symbol (fun ch => ch == '/') s = (some Bool.false, s) := by
      unfold check_next_symbol; rw [h]; simp [hc]
    simp [scan_token, hcns, add_token]
  · have hcns : check_next_symbol (fun ch => ch == '/') s =
        (some Bool.true, { s with current := s.current + 1 }) := by
      unfold check_next_symbol; rw [h]; simp
    obtain ⟨hlt, _⟩ := List.get?_eq_some.mp h
    have hcl := comment_loop_consumes (s.source.length + 1) { s with current := s.current + 1 }
      (by simp only []; omega) (by simp only []; omega)
    have hmain : scan_token '/' start s =
        { s with
            current :=
              (min
                (s.current + 1 +
                  ((s.source.drop (s.current + 1)).takeWhile (fun ch => ch != '\n')).length + 1)
                s.source.length)
            line := s.line + 1 } := by
      simp [scan_token, hcns, hcl]
    exact ⟨by rw [hmain], by rw [hmain], hmain⟩

/-- C6 witness: the three cases of the amended claim at concrete
scanner states — a lone slash, a slash before `+`, and a comment
`//a` followed by a newline and a `b` that must not be consumed. -/
theorem claim6_slash_cases_witness :
    ((scan_token '/' 0 ⟨['/'], 1, 1, [], []⟩).tokens = [] ∧
      (scan_token '/' 0 ⟨['/'], 1, 1, [], []⟩).errors = [(1, "Unexpected EOF")]) ∧
    ((scan_token '/' 0 ⟨['/', '+'], 1, 1, [], []⟩).tokens = [⟨.Slash, "/", 1⟩] ∧
      (scan_token '/' 0 ⟨['/', '+'], 1, 1, [], []⟩).errors = []) ∧
    ((scan_token '/' 0 ⟨['/', '/', 'a', '\n', 'b'], 1, 1, [], []⟩).tokens = [] ∧
      (scan_token '/' 0 ⟨['/', '/', 'a', '\n', 'b'], 1, 1, [], []⟩).errors = [] ∧
      scan_token '/' 0 ⟨['/', '/', 'a', '\n', 'b'], 1, 1, [], []⟩ =
        ⟨['/', '/', 'a', '\n', 'b'], 4, 2, [], []⟩) :=
  ⟨(claim6_slash_cases ⟨['/'], 1, 1, [], []⟩ 0).1 rfl,
    (claim6_slash_cases ⟨['/', '+'], 1, 1, [], []⟩ 0).2.1 '+' rfl (by decide),
    (claim6_slash_cases ⟨['/', '/', 'a', '\n', 'b'], 1, 1, [], []⟩ 0).2.2 rfl⟩

/-- C7: the claim states that every string literal with a matching
closing quote produces a `String` token (strings may span newlines) and
that only reaching end of input without a closing quote reports an
unterminated-string error.  In `make_string` the `Some(false)` arm
consumes a newline via `check_next_symbol` and then calls `advance()`
as well, skipping the character after the newline unchecked; a closing
quote placed directly after a newline is therefore consumed blindly and
the scan runs to end of input: the three-character input `"` `\n` `"`
reports "Unterminated string." (at line 2) and yields no token, where
the claim requires one `String` token with lexeme `"\n"`.  An ordinary
single-line literal such as `"ab"` does produce its token, isolating
the divergence to the newline case. -/
theorem claim7_closing_quote_after_newline_missed :
    (scan "\"\n\"").tokens = [] ∧
    (scan "\"\n\"").errors = [(2, "Unterminated string.")] ∧
    (scan "\"ab\"").tokens = [⟨.Str "ab", "ab", 1⟩] ∧
    (scan "\"ab\"").errors = [] :=
  ⟨by decide, by decide, by decide, by decide⟩

/-- C8 counterexample: the claim states that two structurally distinct
trees render to distinct strings.  The `Literal` `Display` arm writes
an empty string for every payload other than `Str` and `Number`, so the
distinct trees `Literal(True)` and `Literal(False)` render
identically. -/
theorem claim8_counterexample :
    display (Expr.literal TokenType.True) = display (Expr.literal TokenType.False) ∧
    Expr.literal TokenType.True ≠ Expr.literal TokenType.False :=
  ⟨rfl, by decide⟩

/-- C8 amended: the rendering is deterministic — a function of the tree
alone, with `Binary`, `Grouping` and `Unary` nodes rendered in the fully
parenthesised prefix form of the claim — but it is not injective:
keyword literals (`true`, `false`, `nil`) all render as the empty
string, so structurally distinct trees can render identically. -/
theorem claim8_display_deterministic_shape :
    (∀ (left right : Expr) (op : Token),
      display (.binary left op right) =
        "(" ++ op.lexeme ++ " " ++ display left ++ " " ++ display right ++ ")") ∧
    (∀ e : Expr, display (.grouping e) = "(group " ++ display e ++ ")") ∧
    (∀ (op : Token) (right : Expr),
      display (.unary op right) = "(" ++ op.lexeme ++ " " ++ display right ++ ")") ∧
    display (.literal .True) = "" ∧
    display (.literal .False) = "" ∧
    display (.literal .Nil) = "" :=
  ⟨fun _ _ _ => rfl, fun _ => rfl, fun _ _ => rfl, rfl, rfl, rfl⟩

/-- C4: for operands that evaluate to values, a `Binary` node with
operator `==` or `!=` never fails: both produce `Ok` with a plain
boolean object, and `!=` produces exactly the negation of what `==`
produces on the same two operand values. -/
theorem claim4_equality_never_fails (left right : Expr) (teq tneq : Token)
    (lv rv : LoxObject)
    (h1 : teq.token_type = TokenType.EqualEqual)
    (h2 : tneq.token_type = TokenType.BangEqual)
    (h3 : interpret left = .ok lv) (h4 : interpret right = .ok rv) :
    ∃ b : Bool,
      interpret (.binary left teq right) = .ok (.bool b) ∧
      interpret (.binary left tneq right) = .ok (.bool (!b)) := by
  refine ⟨eq_ans lv rv, ?_, ?_⟩
  · simp [interpret, h3, h4, binary_interpret_op, h1]
  · simp [interpret, h3, h4, binary_interpret_op, h2]

/-- C4 witness: the general theorem applied at `1 == "1"` / `1 != "1"`. -/
theorem claim4_equality_never_fails_witness :
    ∃ b : Bool,
      interpret (.binary (.literal (.Number 1)) ⟨.EqualEqual, "==", 1⟩
          (.literal (.Str "1"))) = .ok (.bool b) ∧
      interpret (.binary (.literal (.Number 1)) ⟨.BangEqual, "!=", 1⟩
          (.literal (.Str "1"))) = .ok (.bool (!b)) :=
  claim4_equality_never_fails (.literal (.Number 1)) (.literal (.Str "1"))
    ⟨.EqualEqual, "==", 1⟩ ⟨.BangEqual, "!=", 1⟩ (.num 1) (.str "1") rfl rfl rfl rfl

/-- C5: a `Binary` `+` node over two operand values concatenates two
`String`s, adds two `Number`s, and fails with a runtime error carrying
the `+` operator token on every other combination of operand kinds; in
particular the tree of `1 + "a"` evaluates to that error. -/
theorem claim5_plus_cases (t : Token) (h : t.token_type = TokenType.Plus) :
    (∀ a b : String, binary_interpret_op t (.str a) (.str b) = .ok (.str (a ++ b))) ∧
    (∀ x y : Rat, binary_interpret_op t (.num x) (.num y) = .ok (.num (x + y))) ∧
    (∀ l r : LoxObject,
      (∀ a b : String, ¬(l = .str a ∧ r = .str b)) →
      (∀ x y : Rat, ¬(l = .num x ∧ r = .num y)) →
      binary_interpret_op t l r = .error ⟨t⟩) ∧
    interpret (.binary (.literal (.Number 1)) t (.literal (.Str "a"))) = .error ⟨t⟩ := by
  have cases3 : ∀ l r : LoxObject,
      (∀ a b : String, ¬(l = .str a ∧ r = .str b)) →
      (∀ x y : Rat, ¬(l = .num x ∧ r = .num y)) →
      binary_interpret_op t l r = .error ⟨t⟩ := by
    intro l r hs hn
    cases l <;> cases r <;> simp [binary_interpret_op, h] <;>
      first
        | exact (hs _ _ ⟨rfl, rfl⟩).elim
        | exact (hn _ _ ⟨rfl, rfl⟩).elim
  refine ⟨fun a b => ?_, fun x y => ?_, cases3, ?_⟩
  · simp [binary_interpret_op, h]
  · simp [binary_interpret_op, h]
  · have : interpret (.binary (.literal (.Number 1)) t (.literal (.Str "a"))) =
        binary_interpret_op t (.num 1) (.str "a") := by
      simp [interpret]
    rw [this]
    exact cases3 _ _ (by simp) (by simp)

/-- C5 witness: the general theorem applied at concrete operands. -/
theorem claim5_plus_cases_witness :
    binary_interpret_op ⟨.Plus, "+", 1⟩ (.str "a") (.str "b") = .ok (.str "ab") ∧
    binary_interpret_op ⟨.Plus, "+", 1⟩ (.optBool none) (.num 2) =
      .error ⟨⟨.Plus, "+", 1⟩⟩ ∧
    interpret (.binary (.literal (.Number 1)) ⟨.Plus, "+", 1⟩ (.literal (.Str "a"))) =
      .error ⟨⟨.Plus, "+", 1⟩⟩ :=
  ⟨(claim5_plus_cases ⟨.Plus, "+", 1⟩ rfl).1 "a" "b",
    (claim5_plus_cases ⟨.Plus, "+", 1⟩ rfl).2.2.1 (.optBool none) (.num 2)
      (by simp) (by simp),
    (claim5_plus_cases ⟨.Plus, "+", 1⟩ rfl).2.2.2⟩

/-- C9: when `primary` needs an expression and the next token matches no
primary rule (it is neither a literal nor `(`), parsing fails with the
"Expected expression." error reported against that token; when the
token sequence is exhausted at that point it fails with a bare parse
failure carrying no token context.  In both cases the result is an
error, never a partial tree — in particular the whole parse of the
scanned input `"1 +"` is the bare failure. -/
theorem claim9_expected_expression :
    (∀ (fuel : Nat) (token : Token) (rest : List Token),
      is_literal_token token = Bool.false →
      (token.token_type == TokenType.LeftParen) = Bool.false →
      primary (fuel + 1) (token :: rest) =
        .error (.reported token "Expected expression.")) ∧
    (∀ fuel : Nat, primary (fuel + 1) [] = .error .silent) ∧
    parse (scan "1 +").tokens = .error .silent := by
  refine ⟨fun fuel token rest h1 h2 => ?_, fun fuel => ?_, ?_⟩
  · simp [primary, check_next_token, h1, h2]
  · simp [primary, check_next_token]
  · have h : (scan "1 +").tokens = [⟨.Number 1, "1", 1⟩, ⟨.Plus, "+", 1⟩] := by decide
    rw [h]; decide

/-- C9 witness: the general parts applied at a `;` token and at the
empty token sequence. -/
theorem claim9_expected_expression_witness :
    primary 1 [⟨.SemiColon, ";", 1⟩] =
      .error (.reported ⟨.SemiColon, ";", 1⟩ "Expected expression.") ∧
    primary 1 [] = .error .silent :=
  ⟨claim9_expected_expression.1 0 ⟨.SemiColon, ";", 1⟩ [] rfl rfl,
    claim9_expected_expression.2.1 0⟩

/-- A token present after `scan_token` was already present or is not an
end-marker token: every `add_token` call site passes a token type other
than `EOF`. -/
theorem mem_scan_token {t : Token} {c : Char} {start : Nat} {s : Scanner}
    (h : t ∈ (scan_token c start s).tokens) :
    t ∈ s.tokens ∨ t.token_type ≠ TokenType.EOF := by
  unfold scan_token at h
  split at h
  case _ => exact (mem_add_token h).imp_right (fun h1 => by rw [h1]; simp)
  case _ => exact (mem_add_token h).imp_right (fun h1 => by rw [h1]; simp)
  case _ => exact (mem_add_token h).imp_right (fun h1 => by rw [h1]; simp)
  case _ => exact (mem_add_token h).imp_right (fun h1 => by rw [h1]; simp)
  case _ => exact (mem_add_token h).imp_right (fun h1 => by rw [h1]; simp)
  case _ => exact (mem_add_token h).imp_right (fun h1 => by rw [h1]; simp)
  case _ => exact (mem_add_token h).imp_right (fun h1 => by rw [h1]; simp)
  case _ => exact (mem_add_token h).imp_right (fun h1 => by rw [h1]; simp)
  case _ => exact (mem_add_token h).imp_right (fun h1 => by rw [h1]; simp)
  case _ => exact (mem_add_token h).imp_right (fun h1 => by rw [h1]; simp)
  case _ =>
    rcases mem_add_next_token h with h' | h' | h' <;> simp_all
  case _ =>
    rcases mem_add_next_token h with h' | h' | h' <;> simp_all
  case _ =>
    rcases mem_add_next_token h with h' | h' | h' <;> simp_all
  case _ =>
    rcases mem_add_next_token h with h' | h' | h' <;> simp_all
  case _ =>
    split at h
    case _ s1 heq =>
      rw [report_error] at h
      exact Or.inl ((check_next_symbol_inv heq).1 ▸ h)
    case _ s1 heq =>
      rcases mem_add_token h with h' | h'
      · exact Or.inl ((check_next_symbol_inv heq).1 ▸ h')
      · rw [h']; right; simp
    case _ s1 heq =>
      have hc := comment_loop_state (s1.source.length + 1) s1
      simp only [] at h
      rw [hc.1, (check_next_symbol_inv heq).1] at h
      exact Or.inl h
  case _ => exact Or.inl h
  case _ => exact Or.inl h
  case _ => exact Or.inl h
  case _ => exact Or.inl h
  case _ =>
    split at h
    case _ tt s1 heq =>
      rcases mem_add_token h with h' | h'
      · exact Or.inl ((make_string_inv heq).1 ▸ h')
      · rcases (make_string_inv heq).2 tt rfl with ⟨a, rfl⟩
        rw [h']; right; simp
    case _ s1 heq =>
      exact Or.inl ((make_string_inv heq).1 ▸ h)
  case _ =>
    split at h
    · split at h
      case _ tt s1 heq =>
        rcases mem_add_token h with h' | h'
        · exact Or.inl ((make_number_inv heq).1 ▸ h')
        · rcases (make_number_inv heq).2 tt rfl with ⟨q, rfl⟩
          rw [h']; right; simp
      case _ s1 heq =>
        exact Or.inl ((make_number_inv heq).1 ▸ h)
    · split at h
      · split at h
        case _ tt s1 heq =>
          rcases mem_add_token h with h' | h'
          · exact Or.inl ((make_identifier_inv heq).1 ▸ h')
          · rw [h']; exact Or.inr (make_identifier_inv heq).2
      · rw [report_error] at h
        exact Or.inl h

/-- A token present after the scan loop was already present or is not
an end-marker token. -/
theorem mem_scan_tokens (fuel : Nat) :
    ∀ (s : Scanner) (t : Token), t ∈ (scan_tokens fuel s).tokens →
      t ∈ s.tokens ∨ t.token_type ≠ TokenType.EOF := by
  induction fuel with
  | zero => intro s t h; exact Or.inl h
  | succ n ih =>
    intro s t h
    unfold scan_tokens at h
    split at h
    · rcases ih _ _ h with h' | h'
      · rcases mem_scan_token h' with h'' | h''
        · exact Or.inl h''
        · exact Or.inr h''
      · exact Or.inr h'
    · exact Or.inl h

/-- C10: the token sequence produced by scanning any source text
contains no `EOF` end-of-input marker token: tokens are appended only
for lexemes found in the text, and no terminal marker is appended after
the last lexeme. -/
theorem claim10_no_eof_marker (source : String) (t : Token)
    (h : t ∈ (scan source).tokens) : t.token_type ≠ TokenType.EOF := by
  rcases mem_scan_tokens ((Scanner.new source).source.length + 1) (Scanner.new source) t h
    with h' | h'
  · cases h'
  · exact h'

/-- C10 witness: the theorem applied to the `+` token scanned from the
one-character input `"+"`. -/
theorem claim10_no_eof_marker_witness :
    (⟨TokenType.Plus, "+", 1⟩ : Token) ∈ (scan "+").tokens ∧
    (⟨TokenType.Plus, "+", 1⟩ : Token).token_type ≠ TokenType.EOF :=
  ⟨by decide, claim10_no_eof_marker "+" ⟨TokenType.Plus, "+", 1⟩ (by decide)⟩

end Lox


